import Mathlib

/-!
Verification of the core logic of a fighting-game macro keyboard firmware
(`src/key.cpp`): a per-switch debounce state machine, a facing-direction
toggle, and blocking timed macro sequences emitted as HID keyboard reports.

The embedding is shallow:
* the macro sequencer (`hold`, `tap`, `cmd_hadouken`, ..., `onPressed`) is
  modelled as a producer of an ordered list of attempted transport
  operations (`Op`): attempted key-report sends, attempted release-alls,
  and blocking delays;
* the USB transport's readiness filtering (`sendKeys` / `releaseAll` both
  begin with `if (!ready()) return;`) is modelled by the interpreter
  `applyOps`, which consults a readiness oracle once per attempted
  send/release and drops the operation when the oracle answers false;
* the debounce loop body for one channel (lines 140-152 of `key.cpp`) is
  the pure step function `debStep` on the per-channel state
  (`lastStable`, `debouncing`, `lastChangeMs`), iterated by `debRun`;
* the C expression `now - lastChangeMs[i]` on `uint32_t` is unsigned
  32-bit modular subtraction, modelled by `elapsed32`.
-/

namespace CheatKB

/-! ### Compile-time constants (SETTINGS section of `key.cpp`) -/

/-- `constexpr size_t N = 5;` — the number of switch channels. -/
def N : Nat := 5

/-- `const uint32_t DEBOUNCE_MS = 30;` -/
def DEBOUNCE_MS : Nat := 30

/-- `const uint16_t STEP = 28;` — duration of each direction step (ms). -/
def STEP : Nat := 28

/-- `const uint16_t TAP = 22;` — tap duration for attack buttons (ms). -/
def TAP : Nat := 22

/-- `const uint16_t GAP = 16;` — gap between steps (ms). -/
def GAP : Nat := 16

/-! HID usage codes for the key bindings (`#define KEY_UP HID_KEY_W` etc.;
the numeric values are the standard USB HID keyboard usage IDs). -/

/-- `KEY_UP = HID_KEY_W` (0x1A). -/
def KEY_UP : Nat := 26

/-- `KEY_LEFT = HID_KEY_A` (0x04). -/
def KEY_LEFT : Nat := 4

/-- `KEY_DOWN = HID_KEY_S` (0x16). -/
def KEY_DOWN : Nat := 22

/-- `KEY_RIGHT = HID_KEY_D` (0x07). -/
def KEY_RIGHT : Nat := 7

/-- `LP = HID_KEY_J` (0x0D) — Light Punch. -/
def LP : Nat := 13

/-- `MP = HID_KEY_K` (0x0E) — Medium Punch. -/
def MP : Nat := 14

/-- `HP = HID_KEY_SEMICOLON` (0x33) — Heavy Punch. -/
def HP : Nat := 51

/-- `LK = HID_KEY_N` (0x11) — Light Kick. -/
def LK : Nat := 17

/-- `MK = HID_KEY_M` (0x10) — Medium Kick. -/
def MK : Nat := 16

/-- `HK = HID_KEY_COMMA` (0x36) — Heavy Kick. -/
def HK : Nat := 54

/-- Arduino `LOW` logic level; with the pull-up wiring, pressed = LOW. -/
def LOW : Bool := false

/-- Arduino `HIGH` logic level; released = HIGH. -/
def HIGH : Bool := true

/-! ### Macro sequencer: attempted transport operations -/

/-- One operation attempted by the sequencer, in program order:
`send ks` is a call to `sendKeys` carrying the 6-byte key-code array `ks`,
`release` a call to `releaseAll`, and `delay ms` a blocking `delay(ms)`. -/
inductive Op where
  | send : List Nat → Op
  | release : Op
  | delay : Nat → Op
deriving DecidableEq, Repr

/-- The 6-byte `kc` array built by `sendKeys`: the first six key codes,
zero-padded to length 6 (`uint8_t kc[6] = {0}; for (i < count && i < 6)`). -/
def kc6 (keys : List Nat) : List Nat :=
  keys.take 6 ++ List.replicate (6 - keys.length) 0

/-- `sendKeys(keys, count)` — one attempted report carrying `kc6 keys`. -/
def sendKeys (keys : List Nat) : List Op :=
  [Op.send (kc6 keys)]

/-- `releaseAll()` — one attempted release-all. -/
def releaseAll : List Op :=
  [Op.release]

/-- `hold(ks, ms)` — copies up to six codes into `tmp`, calls `sendKeys`,
then `delay(ms)`. (`kc6 (ks.take 6) = kc6 ks`, so we pass `ks` directly.) -/
def hold (ks : List Nat) (ms : Nat) : List Op :=
  sendKeys ks ++ [Op.delay ms]

/-- `tap(k, ms)` — `hold({k}, ms); releaseAll(); delay(GAP);`. -/
def tap (k : Nat) (ms : Nat) : List Op :=
  hold [k] ms ++ releaseAll ++ [Op.delay GAP]

/-- `FORWARD()` — `facingRight ? KEY_RIGHT : KEY_LEFT`. -/
def FORWARD (facingRight : Bool) : Nat :=
  if facingRight then KEY_RIGHT else KEY_LEFT

/-- `BACKWARD()` — `facingRight ? KEY_LEFT : KEY_RIGHT`. -/
def BACKWARD (facingRight : Bool) : Nat :=
  if facingRight then KEY_LEFT else KEY_RIGHT

/-- `hold_df(ms)` — hold down-forward. -/
def hold_df (facingRight : Bool) (ms : Nat) : List Op :=
  hold [KEY_DOWN, FORWARD facingRight] ms

/-- `hold_db(ms)` — hold down-back. -/
def hold_db (facingRight : Bool) (ms : Nat) : List Op :=
  hold [KEY_DOWN, BACKWARD facingRight] ms

/-- `cmd_hadouken(punch)` — quarter-circle-forward:
`hold({KEY_DOWN}, STEP); releaseAll(); delay(GAP); hold_df(STEP);
releaseAll(); delay(GAP); hold({FORWARD()}, STEP/2); tap(punch, TAP);
releaseAll();`. -/
def cmd_hadouken (facingRight : Bool) (punch : Nat) : List Op :=
  hold [KEY_DOWN] STEP ++ releaseAll ++ [Op.delay GAP] ++
  hold_df facingRight STEP ++ releaseAll ++ [Op.delay GAP] ++
  hold [FORWARD facingRight] (STEP / 2) ++
  tap punch TAP ++
  releaseAll

/-- `cmd_shoryu(punch)` — anti-air motion. -/
def cmd_shoryu (facingRight : Bool) (punch : Nat) : List Op :=
  hold [FORWARD facingRight] (STEP / 2) ++ releaseAll ++ [Op.delay (GAP / 2)] ++
  hold [KEY_DOWN] (STEP / 2) ++ releaseAll ++ [Op.delay (GAP / 2)] ++
  hold_df facingRight STEP ++
  tap punch TAP ++
  releaseAll

/-- `cmd_tatsu(kick)` — spin-kick motion. -/
def cmd_tatsu (facingRight : Bool) (kick : Nat) : List Op :=
  hold [KEY_DOWN] STEP ++ releaseAll ++ [Op.delay GAP] ++
  hold_db facingRight STEP ++ releaseAll ++ [Op.delay GAP] ++
  hold [BACKWARD facingRight] (STEP / 2) ++
  tap kick TAP ++
  releaseAll

/-- `onPressed(idx)` — the dispatcher: maps a channel index to a macro or
the facing toggle. Returns the new `facingRight` and the operations the
dispatch attempts. `BTN_HADOU=0, BTN_SHORYU=1, BTN_TATSU=2,
BTN_TOGGLE_FACE=3`; `default: break;` for every other index. -/
def onPressed (facingRight : Bool) (idx : Nat) : Bool × List Op :=
  match idx with
  | 0 => (facingRight, cmd_hadouken facingRight LP)
  | 1 => (facingRight, cmd_shoryu facingRight MP)
  | 2 => (facingRight, cmd_tatsu facingRight LK)
  | 3 => (!facingRight, [])
  | _ => (facingRight, [])

/-! ### Transport-level interpretation of an operation list -/

/-- An event actually seen by the HID transport: a keyboard report (the
6-byte key-code array), a release-all, or a blocking delay. -/
inductive Ev where
  | report : List Nat → Ev
  | release : Ev
  | delay : Nat → Ev
deriving DecidableEq, Repr

/-- Interpret a list of attempted operations against a readiness oracle
`rdy`. Each attempted send/release consults `ready()` exactly once (the
`k`-th consultation overall); when not ready the attempt is silently
dropped — no retry, no queued replay. Delays always execute. -/
def applyOps (rdy : Nat → Bool) : Nat → List Op → List Ev
  | _, [] => []
  | k, Op.send ks :: rest =>
      (if rdy k then [Ev.report ks] else []) ++ applyOps rdy (k + 1) rest
  | k, Op.release :: rest =>
      (if rdy k then [Ev.release] else []) ++ applyOps rdy (k + 1) rest
  | k, Op.delay ms :: rest =>
      Ev.delay ms :: applyOps rdy k rest

/-- The always-ready oracle: every send succeeds. -/
def allReady : Nat → Bool := fun _ => true

/-- The delay durations of an attempted-operation list, in order. -/
def delaysOfOps (ops : List Op) : List Nat :=
  ops.filterMap (fun op => match op with
    | Op.delay ms => some ms
    | _ => none)

/-- The delay durations of a transport-event list, in order. -/
def delaysOfEvs (evs : List Ev) : List Nat :=
  evs.filterMap (fun e => match e with
    | Ev.delay ms => some ms
    | _ => none)

/-- Substitute key code `a` by `b` inside every report of an event. -/
def substEv (a b : Nat) (e : Ev) : Ev :=
  match e with
  | Ev.report ks => Ev.report (ks.map (fun k => if k = a then b else k))
  | e => e

/-! ### Debouncer (per-channel state of `loop()` in `key.cpp`) -/

/-- Per-channel debounce state: `lastStable[i]`, `debouncing[i]`,
`lastChangeMs[i]`. -/
structure DebState where
  lastStable : Bool
  debouncing : Bool
  lastChangeMs : Nat
deriving DecidableEq, Repr

/-- Unsigned 32-bit modular difference `now - last` as computed by the C
expression `now - lastChangeMs[i]` on `uint32_t` (4294967296 = 2^32). -/
def elapsed32 (now last : Nat) : Nat :=
  (4294967296 + now % 4294967296 - last % 4294967296) % 4294967296

/-- One debounce update for one channel (`loop()` body, lines 140-152):
```
if (raw != lastStable[i]) {
  if (!debouncing[i]) { debouncing[i] = true; lastChangeMs[i] = now; }
  else if (now - lastChangeMs[i] >= DEBOUNCE_MS) {
    debouncing[i] = false; lastStable[i] = raw;
    if (raw == LOW) onPressed(i);
  }
} else { debouncing[i] = false; }
```
Returned `Bool` is whether a press event fires (i.e. `onPressed` runs). -/
def debStep (s : DebState) (now : Nat) (raw : Bool) : DebState × Bool :=
  if raw = s.lastStable then
    ({ s with debouncing := false }, false)
  else if s.debouncing = false then
    ({ s with debouncing := true, lastChangeMs := now }, false)
  else if DEBOUNCE_MS ≤ elapsed32 now s.lastChangeMs then
    ({ s with lastStable := raw, debouncing := false }, raw == LOW)
  else
    (s, false)

/-- Iterate `debStep` over a sample sequence `(now, raw)` for one channel,
counting fired press events. -/
def debRun (s : DebState) : List (Nat × Bool) → DebState × Nat
  | [] => (s, 0)
  | (t, r) :: rest =>
      let p := debStep s t r
      let q := debRun p.1 rest
      (q.1, (if p.2 then 1 else 0) + q.2)

/-- Decidable description of a "bouncy" input sequence for a channel whose
stable level is `s0`: every departure from `s0` returns to `s0` before
`DEBOUNCE_MS` elapses (in 32-bit clock arithmetic) since that departure
began. The `Option Nat` tracks the start time of the current departure. -/
def bouncyInput (s0 : Bool) : Option Nat → List (Nat × Bool) → Bool
  | _, [] => true
  | none, (t, r) :: rest =>
      if r = s0 then bouncyInput s0 none rest
      else bouncyInput s0 (some t) rest
  | some t0, (t, r) :: rest =>
      if r = s0 then bouncyInput s0 none rest
      else decide (elapsed32 t t0 < DEBOUNCE_MS) && bouncyInput s0 (some t0) rest

/-! ### Theorems -/

/-- C1: With the transport always ready, the quarter-circle-forward macro
with attack code `LP` and `facingRight = true` emits exactly: `{Down}` held
STEP ms, release-all, gap GAP ms, `{Down,Right}` held STEP ms, release-all,
gap GAP ms, `{Right}` held STEP/2 ms, then `{LP}` alone held TAP ms (the
tap replaces the asserted set with only the attack key), release-all, gap
GAP ms, and a final release-all; and with `facingRight = false` the same
macro emits the identical sequence with `Left` substituted for every
`Right`, all other key codes and durations unchanged. -/
theorem hadouken_report_sequence :
    applyOps allReady 0 (cmd_hadouken true LP) =
      [Ev.report [KEY_DOWN, 0, 0, 0, 0, 0], Ev.delay STEP,
       Ev.release, Ev.delay GAP,
       Ev.report [KEY_DOWN, KEY_RIGHT, 0, 0, 0, 0], Ev.delay STEP,
       Ev.release, Ev.delay GAP,
       Ev.report [KEY_RIGHT, 0, 0, 0, 0, 0], Ev.delay (STEP / 2),
       Ev.report [LP, 0, 0, 0, 0, 0], Ev.delay TAP,
       Ev.release, Ev.delay GAP,
       Ev.release] ∧
    applyOps allReady 0 (cmd_hadouken false LP) =
      (applyOps allReady 0 (cmd_hadouken true LP)).map (substEv KEY_RIGHT KEY_LEFT) :=
  ⟨rfl, rfl⟩

/-- C4: Dispatching a press on the facing-toggle channel (index 3,
`BTN_TOGGLE_FACE`) flips `facingRight` exactly once and attempts no
transport operation at all — no sends, no release-alls, and no delays
(hence no timed blocking wait). -/
theorem facing_toggle_no_output (facingRight : Bool) :
    onPressed facingRight 3 = (!facingRight, []) :=
  rfl

/-- C6: The total blocking duration of the quarter-circle-forward macro —
the sum of all delay arguments it executes — equals
`STEP + GAP + STEP + GAP + STEP/2 + TAP + GAP`, for either facing
direction and any attack code. -/
theorem hadouken_total_delay (facingRight : Bool) (punch : Nat) :
    (delaysOfOps (cmd_hadouken facingRight punch)).sum =
      STEP + GAP + STEP + GAP + STEP / 2 + TAP + GAP := by
  cases facingRight <;> rfl

/-- C8: Dispatching the facing toggle twice restores `facingRight` to its
original value, and any dispatch performed after the two toggles produces
exactly the same output as before both toggles. -/
theorem facing_toggle_involutive (facingRight : Bool) (idx : Nat) :
    (onPressed (onPressed facingRight 3).1 3).1 = facingRight ∧
    onPressed (onPressed (onPressed facingRight 3).1 3).1 idx =
      onPressed facingRight idx := by
  cases facingRight <;> exact ⟨rfl, rfl⟩

/-- C9: A dispatched press on any channel index outside `{0,1,2,3}`
(including channel 4 of the N = 5 reference configuration) is a no-op:
`facingRight` is unchanged and no transport operation is attempted. (The
dispatcher acts on no other state, so debounce state is untouched by
construction, and the `default: break;` raises no error.) -/
theorem unknown_index_noop (facingRight : Bool) (idx : Nat) (h : 4 ≤ idx) :
    onPressed facingRight idx = (facingRight, []) := by
  obtain ⟨n, rfl⟩ : ∃ n, idx = n + 4 := ⟨idx - 4, by omega⟩
  rfl

/-- Witness for C9 at the concrete unmapped channel 4. -/
theorem unknown_index_noop_witness :
    4 ≤ 4 ∧ onPressed true 4 = (true, []) :=
  ⟨by decide, unknown_index_noop true 4 (by decide)⟩

/-- Unfolding lemma: reports contribute no delay. -/
lemma delaysOfEvs_report (ks : List Nat) (l : List Ev) :
    delaysOfEvs (Ev.report ks :: l) = delaysOfEvs l := rfl

/-- Unfolding lemma: release events contribute no delay. -/
lemma delaysOfEvs_release (l : List Ev) :
    delaysOfEvs (Ev.release :: l) = delaysOfEvs l := rfl

/-- Unfolding lemma: a delay event contributes its duration. -/
lemma delaysOfEvs_delay (ms : Nat) (l : List Ev) :
    delaysOfEvs (Ev.delay ms :: l) = ms :: delaysOfEvs l := rfl

/-- Unfolding lemma: attempted sends contribute no delay. -/
lemma delaysOfOps_send (ks : List Nat) (l : List Op) :
    delaysOfOps (Op.send ks :: l) = delaysOfOps l := rfl

/-- Unfolding lemma: attempted release-alls contribute no delay. -/
lemma delaysOfOps_release (l : List Op) :
    delaysOfOps (Op.release :: l) = delaysOfOps l := rfl

/-- Unfolding lemma: a delay operation contributes its duration. -/
lemma delaysOfOps_delay (ms : Nat) (l : List Op) :
    delaysOfOps (Op.delay ms :: l) = ms :: delaysOfOps l := rfl

/-- C5: For any attempted-operation list and any readiness oracle, the
interpreted run is a sublist of the always-ready run (a not-ready send is
dropped in place — nothing is retried, replayed, or reordered), and the
sequence of executed delay durations is exactly the operation list's delay
sequence, independent of the `ready()` results. -/
theorem send_skip_timing_independent (ops : List Op) (rdy : Nat → Bool) (k : Nat) :
    delaysOfEvs (applyOps rdy k ops) = delaysOfOps ops ∧
    (applyOps rdy k ops).Sublist (applyOps allReady k ops) := by
  induction ops generalizing k with
  | nil => exact ⟨rfl, List.Sublist.refl _⟩
  | cons op rest ih =>
    obtain ⟨ih1, ih2⟩ := ih (k + 1)
    obtain ⟨ih1s, ih2s⟩ := ih k
    cases op with
    | send ks =>
      refine ⟨?_, ?_⟩ <;> simp only [applyOps, allReady, if_true]
      · cases h : rdy k <;>
          simp [h, delaysOfEvs_report, delaysOfOps_send, ih1]
      · cases h : rdy k
        · simpa [h] using ih2.cons (Ev.report ks)
        · simpa [h] using ih2.cons₂ (Ev.report ks)
    | release =>
      refine ⟨?_, ?_⟩ <;> simp only [applyOps, allReady, if_true]
      · cases h : rdy k <;>
          simp [h, delaysOfEvs_release, delaysOfOps_release, ih1]
      · cases h : rdy k
        · simpa [h] using ih2.cons Ev.release
        · simpa [h] using ih2.cons₂ Ev.release
    | delay ms =>
      refine ⟨?_, ?_⟩ <;> simp only [applyOps]
      · simp [delaysOfEvs_delay, delaysOfOps_delay, ih1s]
      · exact ih2s.cons₂ (Ev.delay ms)

/-- C7: During an in-progress transition, any raw level different from
`lastStable` continues the same pending transition: `lastChangeMs` is never
reset, the post-state is still debouncing exactly when the 32-bit elapsed
time is below `DEBOUNCE_MS`, and before the window elapses the state is
entirely unchanged (the timer is not restarted). The step compares the raw
level only against `lastStable` — the state holds no pending level at all. -/
theorem midtransition_timer_not_reset (s : DebState) (now : Nat) (raw : Bool)
    (hd : s.debouncing = true) (hne : raw ≠ s.lastStable) :
    (debStep s now raw).1.lastChangeMs = s.lastChangeMs ∧
    (debStep s now raw).1.debouncing =
      decide (elapsed32 now s.lastChangeMs < DEBOUNCE_MS) ∧
    (elapsed32 now s.lastChangeMs < DEBOUNCE_MS → debStep s now raw = (s, false)) := by
  by_cases h : DEBOUNCE_MS ≤ elapsed32 now s.lastChangeMs
  · refine ⟨?_, ?_, ?_⟩ <;> simp [debStep, hne, hd, h, Nat.not_lt.mpr h]
  · refine ⟨?_, ?_, ?_⟩ <;> simp [debStep, hne, hd, h, Nat.lt_of_not_le h]

/-- Witness for C7: a mid-transition sample 10 ms in (window 30 ms) leaves
the state untouched. -/
theorem midtransition_timer_not_reset_witness :
    (debStep ⟨HIGH, true, 0⟩ 10 LOW).1.lastChangeMs = 0 ∧
    (debStep ⟨HIGH, true, 0⟩ 10 LOW).1.debouncing =
      decide (elapsed32 10 0 < DEBOUNCE_MS) ∧
    (elapsed32 10 0 < DEBOUNCE_MS →
      debStep ⟨HIGH, true, 0⟩ 10 LOW = (⟨HIGH, true, 0⟩, false)) :=
  midtransition_timer_not_reset ⟨HIGH, true, 0⟩ 10 LOW rfl (by decide)

/-- A pending transition away from stable level `s0` that began at `t0`
absorbs any further samples that differ from `s0` and arrive before the
debounce window elapses, leaving state and event count untouched. -/
lemma debRun_pending (s0 : Bool) (t0 : Nat) (mids ys : List (Nat × Bool))
    (hm : ∀ p ∈ mids, p.2 ≠ s0 ∧ elapsed32 p.1 t0 < DEBOUNCE_MS) :
    debRun ⟨s0, true, t0⟩ (mids ++ ys) = debRun ⟨s0, true, t0⟩ ys := by
  induction mids with
  | nil => rfl
  | cons p rest ih =>
    obtain ⟨t, r⟩ := p
    obtain ⟨h1, h2⟩ := hm (t, r) (by simp)
    have hstep : debStep ⟨s0, true, t0⟩ t r = (⟨s0, true, t0⟩, false) := by
      simp [debStep, h1, Nat.not_le.mpr h2]
    have hrest : ∀ p ∈ rest, p.2 ≠ s0 ∧ elapsed32 p.1 t0 < DEBOUNCE_MS :=
      fun p hp => hm p (List.mem_cons_of_mem _ hp)
    simp [debRun, hstep, ih hrest]

/-- C2: From a settled state with stable level `s0`, a transition that
starts at time `t0`, never returns to `s0` at any intermediate sample
inside the debounce window, and is still away from `s0` at a sample `tf`
with at least `DEBOUNCE_MS` elapsed, commits the new level `rf` and fires
exactly one press event if `rf` is the pressed polarity (LOW) and none if
it is the released polarity (HIGH). -/
theorem debounce_commit_press (s0 r0 rf : Bool) (lc t0 tf : Nat)
    (mids : List (Nat × Bool))
    (h0 : r0 ≠ s0)
    (hm : ∀ p ∈ mids, p.2 ≠ s0 ∧ elapsed32 p.1 t0 < DEBOUNCE_MS)
    (hf : rf ≠ s0) (hDeb : DEBOUNCE_MS ≤ elapsed32 tf t0) :
    debRun ⟨s0, false, lc⟩ ((t0, r0) :: (mids ++ [(tf, rf)])) =
      (⟨rf, false, t0⟩, if rf = LOW then 1 else 0) := by
  have hstart : debStep ⟨s0, false, lc⟩ t0 r0 = (⟨s0, true, t0⟩, false) := by
    simp [debStep, h0]
  have hcommit : debStep ⟨s0, true, t0⟩ tf rf = (⟨rf, false, t0⟩, rf == LOW) := by
    simp [debStep, hf, hDeb]
  simp only [debRun, hstart, debRun_pending s0 t0 mids [(tf, rf)] hm, hcommit]
  cases rf <;> simp [debRun, LOW]

/-- Witness for C2: stable HIGH, raw drops LOW at t = 5, stays LOW through
t = 20, commits at t = 35 (30 ms elapsed): exactly one press event. -/
theorem debounce_commit_press_witness :
    debRun ⟨HIGH, false, 0⟩ [(5, LOW), (20, LOW), (35, LOW)] =
      (⟨LOW, false, 5⟩, 1) := by
  have h := debounce_commit_press HIGH LOW LOW 0 5 35 [(20, LOW)]
    (by decide) (by decide) (by decide) (by decide)
  simpa using h

/-- C10: The debounce elapsed-time test `now - lastChangeMs[i]` in unsigned
32-bit arithmetic recovers the true elapsed time `e` even when the
millisecond clock wraps around 2^32 between transition start and the
current sample, provided `e < 2^32`; consequently the commit decision of
`debStep` at such a sample is exactly `DEBOUNCE_MS ≤ e`. -/
theorem elapsed_wrap_correct (t0 e : Nat) (he : e < 4294967296) :
    elapsed32 ((t0 + e) % 4294967296) (t0 % 4294967296) = e ∧
    ∀ (s : DebState) (raw : Bool), raw ≠ s.lastStable → s.debouncing = true →
      s.lastChangeMs = t0 % 4294967296 →
      ((debStep s ((t0 + e) % 4294967296) raw).1.debouncing = false ↔
        DEBOUNCE_MS ≤ e) := by
  have h4 : elapsed32 ((t0 + e) % 4294967296) (t0 % 4294967296) = e := by
    simp only [elapsed32]
    omega
  refine ⟨h4, ?_⟩
  intro s raw h1 h2 h3
  by_cases h5 : DEBOUNCE_MS ≤ e
  · simp [debStep, h1, h2, h3, h4, h5]
  · simp [debStep, h1, h2, h3, h4, h5]

/-- Witness for C10 across a clock wrap: the transition starts 10 ms before
wraparound and the sample is taken 40 ms after it; elapsed = 50 ms. -/
theorem elapsed_wrap_correct_witness :
    elapsed32 ((4294967286 + 50) % 4294967296) (4294967286 % 4294967296) = 50 ∧
    ((debStep ⟨HIGH, true, 4294967286 % 4294967296⟩
        ((4294967286 + 50) % 4294967296) LOW).1.debouncing = false ↔
      DEBOUNCE_MS ≤ 50) := by
  have h := elapsed_wrap_correct 4294967286 50 (by norm_num)
  exact ⟨h.1, h.2 ⟨HIGH, true, 4294967286 % 4294967296⟩ LOW (by decide) rfl rfl⟩

/-- Invariant run lemma for bounce rejection: starting from any state whose
stable level is `s0` and whose debouncing flag/timer agree with the
departure tracker `tr`, a bouncy input sequence commits nothing: the final
stable level is still `s0` and no press event fires. -/
lemma bouncy_run (xs : List (Nat × Bool)) : ∀ (s0 : Bool) (tr : Option Nat) (s : DebState),
    bouncyInput s0 tr xs = true → s.lastStable = s0 →
    (tr = none → s.debouncing = false) →
    (∀ t0, tr = some t0 → s.debouncing = true ∧ s.lastChangeMs = t0) →
    (debRun s xs).1.lastStable = s0 ∧ (debRun s xs).2 = 0 := by
  induction xs with
  | nil => intro s0 tr s _ hs _ _; exact ⟨hs, rfl⟩
  | cons p rest ih =>
    obtain ⟨t, r⟩ := p
    intro s0 tr s hb hs hnone hsome
    by_cases hr : r = s0
    · have hstep : debStep s t r = ({ s with debouncing := false }, false) := by
        simp [debStep, hr ▸ hs.symm]
      have hb' : bouncyInput s0 none rest = true := by
        cases tr with
        | none => simpa [bouncyInput, hr] using hb
        | some t0 => simpa [bouncyInput, hr] using hb
      have htail := ih s0 none { s with debouncing := false } hb' hs
        (fun _ => rfl) (fun t0 h => by cases h)
      simpa [debRun, hstep] using htail
    · cases tr with
      | none =>
        have hdeb : s.debouncing = false := hnone rfl
        have hstep : debStep s t r =
            ({ s with debouncing := true, lastChangeMs := t }, false) := by
          simp [debStep, hs ▸ hr, hdeb]
        have hb' : bouncyInput s0 (some t) rest = true := by
          simpa [bouncyInput, hr] using hb
        have htail := ih s0 (some t) { s with debouncing := true, lastChangeMs := t }
          hb' hs (fun h => by cases h)
          (fun t0 h => by cases h; exact ⟨rfl, rfl⟩)
        simpa [debRun, hstep] using htail
      | some t0 =>
        obtain ⟨hdeb, hlc⟩ := hsome t0 rfl
        have hb2 : elapsed32 t t0 < DEBOUNCE_MS ∧ bouncyInput s0 (some t0) rest = true := by
          have := hb
          simp only [bouncyInput, if_neg hr, Bool.and_eq_true, decide_eq_true_eq] at this
          exact this
        have hstep : debStep s t r = (s, false) := by
          simp [debStep, hs ▸ hr, hdeb, hlc, Nat.not_le.mpr hb2.1]
        have htail := ih s0 (some t0) s hb2.2 hs (fun h => by cases h)
          (fun u h => by cases h; exact ⟨hdeb, hlc⟩)
        simpa [debRun, hstep] using htail

/-- C3: Any raw-sample sequence in which every departure from the stable
level `s0` returns to `s0` before `DEBOUNCE_MS` elapses (a bouncy input)
produces no press event, and the stable level is unchanged at the end of
the sequence: bounce is fully discarded, not remembered. -/
theorem debounce_bounce_rejected (s0 : Bool) (lc : Nat) (xs : List (Nat × Bool))
    (h : bouncyInput s0 none xs = true) :
    (debRun ⟨s0, false, lc⟩ xs).1.lastStable = s0 ∧
    (debRun ⟨s0, false, lc⟩ xs).2 = 0 :=
  bouncy_run xs s0 none ⟨s0, false, lc⟩ h rfl (fun _ => rfl) (fun _ h => by cases h)

/-- Witness for C3: stable HIGH; two separate bounces toward LOW, each
returning to HIGH before 30 ms elapse — no event, stable level kept. -/
theorem debounce_bounce_rejected_witness :
    bouncyInput HIGH none
      [(0, LOW), (10, LOW), (20, HIGH), (100, LOW), (125, HIGH)] = true ∧
    (debRun ⟨HIGH, false, 0⟩
      [(0, LOW), (10, LOW), (20, HIGH), (100, LOW), (125, HIGH)]).1.lastStable = HIGH ∧
    (debRun ⟨HIGH, false, 0⟩
      [(0, LOW), (10, LOW), (20, HIGH), (100, LOW), (125, HIGH)]).2 = 0 :=
  ⟨by decide, debounce_bounce_rejected HIGH 0
    [(0, LOW), (10, LOW), (20, HIGH), (100, LOW), (125, HIGH)] (by decide)⟩

end CheatKB
